import Mathlib

/-!
Verification of the `dc6006l` power-supply controller (FNIRSI DC6006L CLI).

The development shallowly embeds the core of `src/dc6006l/__init__.py`:

* `parseStatus` embeds `GenericPS.parse_status`: a buffer of raw bytes is
  decoded as ASCII (failing with a `UnicodeDecodeError` on any byte ≥ 128) and
  matched against four regex shapes, in order: the anchored live-telemetry
  pattern (type 0), the limits pattern (type 1), the targets pattern (type 2)
  and the live pattern allowed to start after arbitrary leading garbage
  (type 3).  Byte strings are `List ℕ`; Python `re` digit groups become
  `matchDigits`/`matchGroup`; the variable-width `\d{4,5}A` group of the
  limits shape becomes `matchGroup45`; the non-greedy `.*?` lead-in of the
  type-3 shape becomes the structural scan `matchLiveP` (the dot does not
  match a newline, byte 10).  Python dicts are association lists
  (`Dict`), Python numbers are `ℚ`, and exceptions are `Except PyErr`.
* `traceLoop` embeds the loop of `GenericPS.trace`: the serial reads are an
  abstract chunk schedule `ℕ → List ℕ`, the wall clock an abstract sequence
  `ℕ → ℚ` of observed elapsed times, and the unbounded `while` is run on
  explicit fuel.  The result is the list of yielded records together with an
  optional exception that escaped the generator.
* `PSstat` embeds the merging fold of `GenericPS.stat`.
* `PSset` embeds `GenericPS.set`: it returns the updated `check_mode`, the
  list of command strings handed to `send` (as byte lists, `\r\n` excluded),
  and the pending read-back check request, or a Python-level error.
-/

/-- Python exception kinds that the embedded code can raise. -/
inductive PyErr where
  | unicodeDecodeError
  | indexError
  | typeError
deriving DecidableEq

/-- A Python value stored in a status dict: a number (`int`/`float`, embedded
as `ℚ`) or a string. -/
inductive PyVal where
  | num (q : ℚ)
  | str (s : String)
deriving DecidableEq

/-- A Python dict with string keys, as an association list in insertion
order. -/
abbrev Dict := List (String × PyVal)

deriving instance DecidableEq for Except

/-- Value of a digit list (most significant first), accumulated onto `acc`,
exactly as `int()` sees the matched group. -/
def digitsValFrom (acc : ℕ) (ds : List ℕ) : ℕ :=
  ds.foldl (fun a d => 10 * a + d) acc

/-- Value of a digit list (most significant first). -/
def digitsVal (ds : List ℕ) : ℕ :=
  digitsValFrom 0 ds

/-- Match exactly `w` ASCII digit bytes (`48`–`57`) at the head of the buffer,
returning the accumulated numeric value and the rest: the embedding of a
`\d{w}` group. -/
def matchDigits : ℕ → ℕ → List ℕ → Option (ℕ × List ℕ)
  | 0, acc, bs => some (acc, bs)
  | _ + 1, _, [] => none
  | w + 1, acc, b :: bs =>
    if 48 ≤ b ∧ b ≤ 57 then matchDigits w (10 * acc + (b - 48)) bs else none

/-- Match one literal byte at the head of the buffer. -/
def matchLit (c : ℕ) (bs : List ℕ) : Option (List ℕ) :=
  match bs with
  | [] => none
  | b :: r => if b = c then some r else none

/-- Match a `\d{w}A` group: `w` digits followed by the literal separator `A`
(byte 65). -/
def matchGroup (w : ℕ) (bs : List ℕ) : Option (ℕ × List ℕ) :=
  (matchDigits w 0 bs).bind fun p =>
  (matchLit 65 p.2).bind fun r =>
  some (p.1, r)

/-- Match the `\d{4,5}A` group of the limits shape.  The regex engine first
tries to take five digits and then demands the separator, falling back to
four digits on failure; `matchGroup 5` fails in exactly the cases in which
that first attempt fails. -/
def matchGroup45 (bs : List ℕ) : Option (ℕ × List ℕ) :=
  match matchGroup 5 bs with
  | some r => some r
  | none => matchGroup 4 bs

/-- The integer digit groups of a type-0/type-3 (live) fragment:
voltage, current, power, an unnamed single digit, temperature, mode, cause,
enable. -/
structure LiveG where
  v : ℕ
  c : ℕ
  p : ℕ
  d4 : ℕ
  temp : ℕ
  mode : ℕ
  cause : ℕ
  en : ℕ
deriving DecidableEq

/-- The integer digit groups of a type-1 (limits) fragment. -/
structure LimitsG where
  ovp : ℕ
  ocp : ℕ
  opp : ℕ
  ohpEn : ℕ
  ohpH : ℕ
  ohpM : ℕ
  ohpS : ℕ
deriving DecidableEq

/-- The integer digit groups of a type-2 (targets) fragment. -/
structure TargetsG where
  tv : ℕ
  tc : ℕ
deriving DecidableEq

/-- The anchored type-0 pattern
`(\d{4})A(\d{4})A(\d{4})A(\d)A(\d{3})A(\d)A(\d)A(\d)A`. -/
def matchLive (bs : List ℕ) : Option (LiveG × List ℕ) :=
  (matchGroup 4 bs).bind fun g1 =>
  (matchGroup 4 g1.2).bind fun g2 =>
  (matchGroup 4 g2.2).bind fun g3 =>
  (matchGroup 1 g3.2).bind fun g4 =>
  (matchGroup 3 g4.2).bind fun g5 =>
  (matchGroup 1 g5.2).bind fun g6 =>
  (matchGroup 1 g6.2).bind fun g7 =>
  (matchGroup 1 g7.2).bind fun g8 =>
  some (⟨g1.1, g2.1, g3.1, g4.1, g5.1, g6.1, g7.1, g8.1⟩, g8.2)

/-- The anchored type-1 pattern
`(\d{4})A(\d{4})A(\d{4,5})A(\d)A(\d\d)A(\d\d)A(\d\d)A`. -/
def matchLimits (bs : List ℕ) : Option (LimitsG × List ℕ) :=
  (matchGroup 4 bs).bind fun g1 =>
  (matchGroup 4 g1.2).bind fun g2 =>
  (matchGroup45 g2.2).bind fun g3 =>
  (matchGroup 1 g3.2).bind fun g4 =>
  (matchGroup 2 g4.2).bind fun g5 =>
  (matchGroup 2 g5.2).bind fun g6 =>
  (matchGroup 2 g6.2).bind fun g7 =>
  some (⟨g1.1, g2.1, g3.1, g4.1, g5.1, g6.1, g7.1⟩, g7.2)

/-- The anchored type-2 pattern `(\d{4})A(\d{4})A`. -/
def matchTargets (bs : List ℕ) : Option (TargetsG × List ℕ) :=
  (matchGroup 4 bs).bind fun g1 =>
  (matchGroup 4 g1.2).bind fun g2 =>
  some (⟨g1.1, g2.1⟩, g2.2)

/-- The type-3 pattern: a non-greedy `.*?` lead-in followed by the type-0
pattern.  The engine tries the live pattern at each successive offset, and
the lead-in may not contain a newline (byte 10), which `.` does not match. -/
def matchLiveP : List ℕ → Option (LiveG × List ℕ)
  | [] => matchLive []
  | b :: bs =>
    match matchLive (b :: bs) with
    | some r => some r
    | none => if b = 10 then none else matchLiveP bs

/-- The fixed cause table `['none', 'OVP', 'OCP', 'OPP', 'OTP', 'OHP']`. -/
def causeTableList : List String :=
  ["none", "OVP", "OCP", "OPP", "OTP", "OHP"]

/-- Post-processed dict of a live fragment, in the insertion order of
`groupdict()`: voltage ÷ 100, current ÷ 1000, power ÷ 100, temperature,
mode (`0 → "CV"`, otherwise `"CC"`), cause string, enable. -/
def liveDict (g : LiveG) (cause : String) : Dict :=
  [("voltage", .num ((g.v : ℚ) / 100)),
   ("current", .num ((g.c : ℚ) / 1000)),
   ("power", .num ((g.p : ℚ) / 100)),
   ("temperature", .num (g.temp : ℚ)),
   ("mode", .str (if g.mode = 0 then "CV" else "CC")),
   ("cause", .str cause),
   ("enable", .num (g.en : ℚ))]

/-- Post-processed dict of a limits fragment: OVP ÷ 100 and OPP ÷ 100, the
rest left as integers. -/
def limitsDict (g : LimitsG) : Dict :=
  [("ovp", .num ((g.ovp : ℚ) / 100)),
   ("ocp", .num (g.ocp : ℚ)),
   ("opp", .num ((g.opp : ℚ) / 100)),
   ("ohp_enable", .num (g.ohpEn : ℚ)),
   ("ohp_h", .num (g.ohpH : ℚ)),
   ("ohp_m", .num (g.ohpM : ℚ)),
   ("ohp_s", .num (g.ohpS : ℚ))]

/-- Post-processed dict of a targets fragment: both fields scaled. -/
def targetsDict (g : TargetsG) : Dict :=
  [("target_voltage", .num ((g.tv : ℚ) / 100)),
   ("target_current", .num ((g.tc : ℚ) / 1000))]

/-- Post-processing of a matched live fragment.  Indexing the six-entry cause
table with a digit ≥ 6 raises `IndexError`, exactly as
`['none','OVP','OCP','OPP','OTP','OHP'][stat['cause']]` does. -/
def postLive (g : LiveG) (rest : List ℕ) : Except PyErr (Option Dict × List ℕ) :=
  match causeTableList[g.cause]? with
  | none => .error .indexError
  | some c => .ok (some (liveDict g c), rest)

/-- The shape dispatch of `parse_status` on an already ASCII-decoded buffer:
the four patterns are tried in list order and the first match wins. -/
def parseStatusM (buf : List ℕ) : Except PyErr (Option Dict × List ℕ) :=
  match matchLive buf with
  | some (g, rest) => postLive g rest
  | none =>
    match matchLimits buf with
    | some (g, rest) => .ok (some (limitsDict g), rest)
    | none =>
      match matchTargets buf with
      | some (g, rest) => .ok (some (targetsDict g), rest)
      | none =>
        match matchLiveP buf with
        | some (g, rest) => postLive g rest
        | none => .ok (none, buf)

/-- `GenericPS.parse_status`: `buf.decode('ascii')` raises
`UnicodeDecodeError` whenever some byte is ≥ 128; otherwise the first
matching shape is decoded and the buffer past `match.end()` is returned, or
`(None, buf)` when nothing matches. -/
def parseStatus (buf : List ℕ) : Except PyErr (Option Dict × List ℕ) :=
  if buf.all (fun b => decide (b < 128)) = true then parseStatusM buf
  else .error .unicodeDecodeError

/-- Lookup in a Python dict (first — and only — entry with the key). -/
def dictGet : Dict → String → Option PyVal
  | [], _ => none
  | (k', v) :: d, k => if k' = k then some v else dictGet d k

/-- `d[k] = v` on a Python dict: overwrite in place if the key exists,
append otherwise. -/
def dictInsert : Dict → String → PyVal → Dict
  | [], k, v => [(k, v)]
  | (k', v') :: d, k, v =>
    if k' = k then (k, v) :: d else (k', v') :: dictInsert d k v

/-- `d1.update(d2)` on Python dicts: every entry of `d2` written into `d1`
in order. -/
def dictUpdate (d e : Dict) : Dict :=
  e.foldl (fun a p => dictInsert a p.1 p.2) d

/-- `GenericPS.stat` applied to the records yielded by `trace`: merge every
truthy record into an initially empty dict and return `None` when the result
is still empty. -/
def PSstat (rets : List Dict) : Option Dict :=
  let s := rets.foldl (fun acc r => if r = [] then acc else dictUpdate acc r) []
  if s = [] then none else some s

/-- One session of the `while` loop of `GenericPS.trace`, on explicit fuel.
`chunks i` is what `sio.read(sio.in_waiting)` returns at iteration `i`, and
`elapsed i` is the observed `time.time() - t0` at the `i`-th guard check.
The loop guard is exactly `(nr != 0) and (timeout > 0 and elapsed < timeout)`.
A parse exception escapes the generator: the records yielded before it are
paired with `some e`. -/
def traceLoop (chunks : ℕ → List ℕ) (elapsed : ℕ → ℚ) (timeout : ℚ) :
    ℕ → ℕ → ℤ → List ℕ → List Dict × Option PyErr
  | 0, _, _, _ => ([], none)
  | fuel + 1, i, nr, buf =>
    if nr ≠ 0 ∧ 0 < timeout ∧ elapsed i < timeout then
      match parseStatus (buf ++ chunks i) with
      | .error e => ([], some e)
      | .ok (some st, rest) =>
        let r := traceLoop chunks elapsed timeout fuel (i + 1)
          (if 0 < nr then nr - 1 else nr) rest
        (st :: r.1, r.2)
      | .ok (none, _) => traceLoop chunks elapsed timeout fuel (i + 1) nr (buf ++ chunks i)
    else ([], none)

/-- The `trace` loop with the record-count test and decrement removed: run
purely until the wall-clock timeout. -/
def traceLoopNoCount (chunks : ℕ → List ℕ) (elapsed : ℕ → ℚ) (timeout : ℚ) :
    ℕ → ℕ → List ℕ → List Dict × Option PyErr
  | 0, _, _ => ([], none)
  | fuel + 1, i, buf =>
    if 0 < timeout ∧ elapsed i < timeout then
      match parseStatus (buf ++ chunks i) with
      | .error e => ([], some e)
      | .ok (some st, rest) =>
        let r := traceLoopNoCount chunks elapsed timeout fuel (i + 1) rest
        (st :: r.1, r.2)
      | .ok (none, _) => traceLoopNoCount chunks elapsed timeout fuel (i + 1) (buf ++ chunks i)
    else ([], none)

/-- The default timeout of `trace`: `nr * 1.5`. -/
def traceTimeoutDefault (nr : ℤ) : ℚ :=
  (nr : ℚ) * (3 / 2)

/-- Python truthiness of an embedded value. -/
def pyTruthy : PyVal → Bool
  | .num q => decide (q ≠ 0)
  | .str s => decide (s ≠ "")

/-- `int()` applied to a `float`/`Fraction`: truncation toward zero, as used
by the `%d` format. -/
def pyTrunc (q : ℚ) : ℤ :=
  q.num.tdiv q.den

/-- Python `%` with a positive right operand (sign of the divisor). -/
def pyMod (q m : ℚ) : ℚ :=
  q - m * ((q / m).num.fdiv (q / m).den : ℤ)

/-- Digits of `n`, most significant first, via repeated division — on fuel so
that the definition computes by kernel reduction. -/
def natDigitsAux : ℕ → ℕ → List ℕ
  | 0, _ => []
  | fuel + 1, n => if n < 10 then [n] else natDigitsAux fuel (n / 10) ++ [n % 10]

/-- Decimal digits of `n`, most significant first. -/
def natDigits (n : ℕ) : List ℕ :=
  natDigitsAux (n + 1) n

/-- Left-pad a digit list with zeros to width `w` (never truncates). -/
def zeroPadDigits (w : ℕ) (ds : List ℕ) : List ℕ :=
  List.replicate (w - ds.length) 0 ++ ds

/-- `"%0wd" % n` for `n ≥ 0`, as ASCII bytes. -/
def formatNat (w n : ℕ) : List ℕ :=
  (zeroPadDigits w (natDigits n)).map (fun d => d + 48)

/-- `"%0wd" % n`: the sign, when present, counts toward the width. -/
def formatInt (w : ℕ) (n : ℤ) : List ℕ :=
  if n < 0 then 45 :: formatNat (w - 1) n.natAbs else formatNat w n.natAbs

/-- The outcome of `GenericPS.set`: the new `check_mode`, the command strings
handed to `send` (as bytes, in order), and the read-back request issued to
`check` when double-check mode is armed. -/
structure SetResult where
  checkMode : Bool
  sent : List (List ℕ)
  checkReq : Option (String × PyVal)
deriving DecidableEq

/-- `GenericPS.set`: the `if/elif` chain on the parameter key.  Opcode bytes:
`N F Q W Z V I B D E H M S X Y O P`.  A string value reaching a numeric
format raises `TypeError`.  An unrecognized key falls through every branch
and does nothing. -/
def PSset (cm : Bool) (key : String) (value : PyVal) : Except PyErr SetResult :=
  if key = "check" then .ok ⟨pyTruthy value, [], none⟩
  else if key = "power" ∨ key = "enable" then
    .ok ⟨cm, [if pyTruthy value then [78] else [70]], none⟩
  else if key = "log" ∨ key = "logging" then
    .ok ⟨cm, [if pyTruthy value then [81] else [87]], none⟩
  else if key = "noprotect" ∧ pyTruthy value = true then .ok ⟨cm, [[90]], none⟩
  else if key = "v" ∨ key = "voltage" then
    match value with
    | .num q => .ok ⟨cm, [86 :: formatInt 4 (pyTrunc (q * 100))],
        if cm then some ("target_voltage", value) else none⟩
    | .str _ => .error .typeError
  else if key = "c" ∨ key = "current" then
    match value with
    | .num q => .ok ⟨cm, [73 :: formatInt 4 (pyTrunc (q * 1000))],
        if cm then some ("target_current", value) else none⟩
    | .str _ => .error .typeError
  else if key = "ovp" then
    match value with
    | .num q => .ok ⟨cm, [66 :: formatInt 4 (pyTrunc (q * 100))], none⟩
    | .str _ => .error .typeError
  else if key = "ocp" then
    match value with
    | .num q => .ok ⟨cm, [68 :: formatInt 4 (pyTrunc (q * 1000))], none⟩
    | .str _ => .error .typeError
  else if key = "opp" then
    match value with
    | .num q => .ok ⟨cm, [69 :: formatInt 4 (pyTrunc (q * 10))], none⟩
    | .str _ => .error .typeError
  else if key = "ohp" then
    match value with
    | .num q => .ok ⟨cm,
        [72 :: formatInt 2 (pyTrunc (q / 3600)),
         77 :: formatInt 2 (pyTrunc (pyMod q 3600 / 60)),
         83 :: formatInt 2 (pyTrunc (pyMod q 60))], none⟩
    | .str _ => .error .typeError
  else if key = "ohp_enable" then
    .ok ⟨cm, [if pyTruthy value then [88] else [89]], none⟩
  else if key = "mem" ∨ key = "memory" then
    .ok ⟨cm, [if value = .str "m1" then [79] else [80]], none⟩
  else .ok ⟨cm, [], none⟩

/-- One digit group of a synthetic fragment: digit values rendered as bytes
followed by the `A` separator. -/
def grp (ds : List ℕ) : List ℕ :=
  ds.map (fun d => d + 48) ++ [65]

/-- A synthetic type-0 fragment built from its eight digit groups. -/
def liveBytes (a1 a2 a3 a4 a5 a6 a7 a8 : List ℕ) : List ℕ :=
  grp a1 ++ grp a2 ++ grp a3 ++ grp a4 ++ grp a5 ++ grp a6 ++ grp a7 ++ grp a8

-- sanity checks (to be removed)
example :
    matchLive (liveBytes [0,5,0,0] [1,0,0,0] [0,2,5,0] [0] [0,2,5] [0] [0] [1]) =
      some (⟨500, 1000, 250, 0, 25, 0, 0, 1⟩, []) := by decide
example :
    (matchTargets (liveBytes [0,5,0,0] [1,0,0,0] [0,2,5,0] [0] [0,2,5] [0] [0] [1])).isSome = true := by
  decide
example : matchLimits (grp [0,1,2,3] ++ grp [4,5,6,7] ++ grp [8,9,0,1,2] ++ grp [1] ++ grp [0,1] ++ grp [2,3] ++ grp [4,5]) =
    some (⟨123, 4567, 89012, 1, 1, 23, 45⟩, []) := by decide
example : parseStatus [200] = .error .unicodeDecodeError := by decide
example : parseStatus (liveBytes [0,1,0,0] [0,2,0,0] [0,3,0,0] [0] [0,4,0] [1] [6] [1]) =
    .error .indexError := by decide
example : parseStatus ([48,49,53,48] ++ 65 :: grp [0,0,0,0]) =
    .ok (some [("target_voltage", .num ((150 : ℚ) / 100)),
               ("target_current", .num ((0 : ℚ) / 1000))], []) := rfl
/-! ### Basic facts about the digit matchers -/

lemma digitsValFrom_cons (acc d : ℕ) (t : List ℕ) :
    digitsValFrom acc (d :: t) = digitsValFrom (10 * acc + d) t := by
  simp [digitsValFrom]

lemma matchDigits_map (ds rest : List ℕ) (acc : ℕ) (hd : ∀ d ∈ ds, d < 10) :
    matchDigits ds.length acc (ds.map (fun d => d + 48) ++ rest) =
      some (digitsValFrom acc ds, rest) := by
  induction ds generalizing acc with
  | nil => simp [matchDigits, digitsValFrom]
  | cons d t ih =>
    have hd0 : d < 10 := hd d (List.mem_cons_self d t)
    simp only [List.map_cons, List.cons_append, List.length_cons, matchDigits]
    rw [if_pos (by omega)]
    have hcan : d + 48 - 48 = d := by omega
    rw [hcan, digitsValFrom_cons]
    exact ih _ (fun x hx => hd x (List.mem_cons_of_mem _ hx))

lemma matchDigits_inv : ∀ (w acc : ℕ) (bs : List ℕ) (v : ℕ) (rest : List ℕ),
    matchDigits w acc bs = some (v, rest) →
    ∃ ds, bs = ds.map (fun d => d + 48) ++ rest ∧ ds.length = w ∧
      (∀ d ∈ ds, d < 10) ∧ v = digitsValFrom acc ds := by
  intro w
  induction w with
  | zero =>
    intro acc bs v rest h
    simp only [matchDigits, Option.some.injEq, Prod.mk.injEq] at h
    exact ⟨[], by simp [h.2], rfl, by simp, by simp [digitsValFrom, h.1]⟩
  | succ w ih =>
    intro acc bs v rest h
    cases bs with
    | nil => simp [matchDigits] at h
    | cons b t =>
      simp only [matchDigits] at h
      by_cases hb : 48 ≤ b ∧ b ≤ 57
      · rw [if_pos hb] at h
        obtain ⟨ds, h1, h2, h3, h4⟩ := ih _ _ _ _ h
        refine ⟨(b - 48) :: ds, ?_, by simp [h2], ?_, ?_⟩
        · rw [List.map_cons, List.cons_append, ← h1]
          have hbc : b - 48 + 48 = b := by omega
          rw [hbc]
        · intro d hdm
          rcases List.mem_cons.mp hdm with rfl | hdm'
          · omega
          · exact h3 d hdm'
        · rw [h4, digitsValFrom_cons]
      · rw [if_neg hb] at h
        exact absurd h (by simp)

lemma matchLit_cons (c : ℕ) (rest : List ℕ) : matchLit c (c :: rest) = some rest := by
  simp [matchLit]

lemma matchLit_inv {c : ℕ} {bs r : List ℕ} (h : matchLit c bs = some r) : bs = c :: r := by
  cases bs with
  | nil => simp [matchLit] at h
  | cons b t =>
    simp only [matchLit] at h
    by_cases hb : b = c
    · subst hb
      rw [if_pos rfl] at h
      simp only [Option.some.injEq] at h
      rw [h]
    · rw [if_neg hb] at h
      exact absurd h (by simp)

lemma matchGroup_cons {w : ℕ} (ds rest : List ℕ) (hw : ds.length = w)
    (hd : ∀ d ∈ ds, d < 10) :
    matchGroup w (ds.map (fun d => d + 48) ++ 65 :: rest) = some (digitsVal ds, rest) := by
  subst hw
  unfold matchGroup
  rw [matchDigits_map ds (65 :: rest) 0 hd]
  simp [matchLit_cons, digitsVal]

lemma matchGroup_inv {w : ℕ} {bs : List ℕ} {v : ℕ} {rest : List ℕ}
    (h : matchGroup w bs = some (v, rest)) :
    ∃ ds, bs = ds.map (fun d => d + 48) ++ 65 :: rest ∧ ds.length = w ∧
      (∀ d ∈ ds, d < 10) ∧ v = digitsVal ds := by
  unfold matchGroup at h
  cases hm : matchDigits w 0 bs with
  | none => rw [hm] at h; simp at h
  | some p =>
  rw [hm] at h
  simp only [Option.some_bind] at h
  cases hl : matchLit 65 p.2 with
  | none => rw [hl] at h; simp at h
  | some r =>
  rw [hl] at h
  simp only [Option.some_bind, Option.some.injEq, Prod.mk.injEq] at h
  obtain ⟨hv, hr⟩ := h
  subst hr
  have hp2 := matchLit_inv hl
  obtain ⟨ds, h1, h2, h3, h4⟩ := matchDigits_inv w 0 bs p.1 p.2 (by rw [hm])
  refine ⟨ds, ?_, h2, h3, ?_⟩
  · rw [h1, hp2]
  · rw [← hv, h4]
    rfl

lemma grp_append (a x : List ℕ) : grp a ++ x = a.map (fun d => d + 48) ++ 65 :: x := by
  simp [grp]

lemma matchLive_build (a1 a2 a3 a4 a5 a6 a7 a8 rest : List ℕ)
    (l1 : a1.length = 4) (l2 : a2.length = 4) (l3 : a3.length = 4) (l4 : a4.length = 1)
    (l5 : a5.length = 3) (l6 : a6.length = 1) (l7 : a7.length = 1) (l8 : a8.length = 1)
    (d1 : ∀ d ∈ a1, d < 10) (d2 : ∀ d ∈ a2, d < 10) (d3 : ∀ d ∈ a3, d < 10)
    (d4 : ∀ d ∈ a4, d < 10) (d5 : ∀ d ∈ a5, d < 10) (d6 : ∀ d ∈ a6, d < 10)
    (d7 : ∀ d ∈ a7, d < 10) (d8 : ∀ d ∈ a8, d < 10) :
    matchLive (liveBytes a1 a2 a3 a4 a5 a6 a7 a8 ++ rest) =
      some (⟨digitsVal a1, digitsVal a2, digitsVal a3, digitsVal a4,
             digitsVal a5, digitsVal a6, digitsVal a7, digitsVal a8⟩, rest) := by
  unfold liveBytes matchLive
  simp only [grp, List.append_assoc, List.cons_append, List.singleton_append,
    List.nil_append]
  rw [matchGroup_cons a1 _ l1 d1]
  simp only [Option.some_bind]
  rw [matchGroup_cons a2 _ l2 d2]
  simp only [Option.some_bind]
  rw [matchGroup_cons a3 _ l3 d3]
  simp only [Option.some_bind]
  rw [matchGroup_cons a4 _ l4 d4]
  simp only [Option.some_bind]
  rw [matchGroup_cons a5 _ l5 d5]
  simp only [Option.some_bind]
  rw [matchGroup_cons a6 _ l6 d6]
  simp only [Option.some_bind]
  rw [matchGroup_cons a7 _ l7 d7]
  simp only [Option.some_bind]
  rw [matchGroup_cons a8 _ l8 d8]
  simp only [Option.some_bind]

lemma matchLive_steps {bs : List ℕ} {g : LiveG} {rest : List ℕ}
    (h : matchLive bs = some (g, rest)) :
    ∃ r1 r2 r3 r4 r5,
      matchGroup 4 bs = some (g.v, r1) ∧
      matchGroup 4 r1 = some (g.c, r2) ∧
      matchGroup 4 r2 = some (g.p, r3) ∧
      matchGroup 1 r3 = some (g.d4, r4) ∧
      matchGroup 3 r4 = some (g.temp, r5) := by
  unfold matchLive at h
  cases k1 : matchGroup 4 bs with
  | none => rw [k1] at h; simp at h
  | some p1 =>
  rw [k1] at h
  simp only [Option.some_bind] at h
  cases k2 : matchGroup 4 p1.2 with
  | none => rw [k2] at h; simp at h
  | some p2 =>
  rw [k2] at h
  simp only [Option.some_bind] at h
  cases k3 : matchGroup 4 p2.2 with
  | none => rw [k3] at h; simp at h
  | some p3 =>
  rw [k3] at h
  simp only [Option.some_bind] at h
  cases k4 : matchGroup 1 p3.2 with
  | none => rw [k4] at h; simp at h
  | some p4 =>
  rw [k4] at h
  simp only [Option.some_bind] at h
  cases k5 : matchGroup 3 p4.2 with
  | none => rw [k5] at h; simp at h
  | some p5 =>
  rw [k5] at h
  simp only [Option.some_bind] at h
  cases k6 : matchGroup 1 p5.2 with
  | none => rw [k6] at h; simp at h
  | some p6 =>
  rw [k6] at h
  simp only [Option.some_bind] at h
  cases k7 : matchGroup 1 p6.2 with
  | none => rw [k7] at h; simp at h
  | some p7 =>
  rw [k7] at h
  simp only [Option.some_bind] at h
  cases k8 : matchGroup 1 p7.2 with
  | none => rw [k8] at h; simp at h
  | some p8 =>
  rw [k8] at h
  simp only [Option.some_bind, Option.some.injEq, Prod.mk.injEq] at h
  obtain ⟨hg, hrest⟩ := h
  subst hg
  subst hrest
  exact ⟨p1.2, p2.2, p3.2, p4.2, p5.2, rfl, k2, k3, k4, k5⟩

lemma matchLimits_steps {bs : List ℕ} {g : LimitsG} {rest : List ℕ}
    (h : matchLimits bs = some (g, rest)) :
    ∃ r1 r2 r3 r4 r5,
      matchGroup 4 bs = some (g.ovp, r1) ∧
      matchGroup 4 r1 = some (g.ocp, r2) ∧
      matchGroup45 r2 = some (g.opp, r3) ∧
      matchGroup 1 r3 = some (g.ohpEn, r4) ∧
      matchGroup 2 r4 = some (g.ohpH, r5) := by
  unfold matchLimits at h
  cases k1 : matchGroup 4 bs with
  | none => rw [k1] at h; simp at h
  | some p1 =>
  rw [k1] at h
  simp only [Option.some_bind] at h
  cases k2 : matchGroup 4 p1.2 with
  | none => rw [k2] at h; simp at h
  | some p2 =>
  rw [k2] at h
  simp only [Option.some_bind] at h
  cases k3 : matchGroup45 p2.2 with
  | none => rw [k3] at h; simp at h
  | some p3 =>
  rw [k3] at h
  simp only [Option.some_bind] at h
  cases k4 : matchGroup 1 p3.2 with
  | none => rw [k4] at h; simp at h
  | some p4 =>
  rw [k4] at h
  simp only [Option.some_bind] at h
  cases k5 : matchGroup 2 p4.2 with
  | none => rw [k5] at h; simp at h
  | some p5 =>
  rw [k5] at h
  simp only [Option.some_bind] at h
  cases k6 : matchGroup 2 p5.2 with
  | none => rw [k6] at h; simp at h
  | some p6 =>
  rw [k6] at h
  simp only [Option.some_bind] at h
  cases k7 : matchGroup 2 p6.2 with
  | none => rw [k7] at h; simp at h
  | some p7 =>
  rw [k7] at h
  simp only [Option.some_bind, Option.some.injEq, Prod.mk.injEq] at h
  obtain ⟨hg, hrest⟩ := h
  subst hg
  subst hrest
  exact ⟨p1.2, p2.2, p3.2, p4.2, p5.2, rfl, k2, k3, k4, k5⟩

lemma map48_append_clash : ∀ (a b : List ℕ) (x y : List ℕ),
    a.map (fun d => d + 48) ++ 65 :: x = b.map (fun d => d + 48) ++ 65 :: y →
    (∀ d ∈ b, d < 10) → a.length < b.length → False := by
  intro a
  induction a with
  | nil =>
    intro b x y h hb hlen
    cases b with
    | nil => simp at hlen
    | cons e b' =>
      simp only [List.map_nil, List.nil_append, List.map_cons, List.cons_append,
        List.cons.injEq] at h
      have he : e < 10 := hb e (List.mem_cons_self _ _)
      omega
  | cons d a' ih =>
    intro b x y h hb hlen
    cases b with
    | nil => simp at hlen
    | cons e b' =>
      simp only [List.map_cons, List.cons_append, List.cons.injEq] at h
      exact ih b' x y h.2 (fun z hz => hb z (List.mem_cons_of_mem _ hz))
        (by simp only [List.length_cons] at hlen; omega)

lemma live_limits_disjoint (bs : List ℕ) :
    ¬((matchLive bs).isSome = true ∧ (matchLimits bs).isSome = true) := by
  rintro ⟨h1, h2⟩
  rw [Option.isSome_iff_exists] at h1 h2
  obtain ⟨⟨g, rest⟩, hg⟩ := h1
  obtain ⟨⟨G, R⟩, hG⟩ := h2
  obtain ⟨r1, r2, r3, r4, r5, k1, k2, k3, k4, k5⟩ := matchLive_steps hg
  obtain ⟨s1, s2, s3, s4, s5, m1, m2, m3, m4, m5⟩ := matchLimits_steps hG
  rw [k1, Option.some.injEq, Prod.mk.injEq] at m1
  obtain ⟨-, hr1⟩ := m1
  subst hr1
  rw [k2, Option.some.injEq, Prod.mk.injEq] at m2
  obtain ⟨-, hr2⟩ := m2
  subst hr2
  obtain ⟨e3, he3, le3, de3, -⟩ := matchGroup_inv k3
  obtain ⟨e5, he5, le5, de5, -⟩ := matchGroup_inv k5
  unfold matchGroup45 at m3
  cases q5 : matchGroup 5 r2 with
  | some p =>
    obtain ⟨pv, pr⟩ := p
    obtain ⟨f, hf, lf, df, -⟩ := matchGroup_inv q5
    exact map48_append_clash e3 f r3 pr (he3.symm.trans hf) df (by omega)
  | none =>
    rw [q5] at m3
    rw [k3, Option.some.injEq, Prod.mk.injEq] at m3
    obtain ⟨-, hr3⟩ := m3
    subst hr3
    rw [k4, Option.some.injEq, Prod.mk.injEq] at m4
    obtain ⟨-, hr4⟩ := m4
    subst hr4
    obtain ⟨f, hf, lf, df, -⟩ := matchGroup_inv m5
    exact map48_append_clash f e5 s5 r5 (hf.symm.trans he5) de5 (by omega)

/-! ### Cause-table and ASCII helpers -/

lemma causeGet_lt (n : ℕ) (h : n < 6) :
    causeTableList[n]? = some (causeTableList.getD n "none") := by
  interval_cases n <;> rfl

lemma causeGet_ge (n : ℕ) (h : 6 ≤ n) : causeTableList[n]? = none := by
  apply List.getElem?_eq_none
  simpa [causeTableList] using h

lemma grp_ascii (a : List ℕ) (hd : ∀ d ∈ a, d < 10) :
    (grp a).all (fun b => decide (b < 128)) = true := by
  rw [List.all_eq_true]
  intro b hb
  simp only [grp, List.mem_append, List.mem_map, List.mem_singleton] at hb
  rcases hb with ⟨d, hdm, rfl⟩ | rfl
  · have := hd d hdm
    simp only [decide_eq_true_eq]
    omega
  · simp

lemma liveBytes_ascii (a1 a2 a3 a4 a5 a6 a7 a8 : List ℕ)
    (d1 : ∀ d ∈ a1, d < 10) (d2 : ∀ d ∈ a2, d < 10) (d3 : ∀ d ∈ a3, d < 10)
    (d4 : ∀ d ∈ a4, d < 10) (d5 : ∀ d ∈ a5, d < 10) (d6 : ∀ d ∈ a6, d < 10)
    (d7 : ∀ d ∈ a7, d < 10) (d8 : ∀ d ∈ a8, d < 10) :
    (liveBytes a1 a2 a3 a4 a5 a6 a7 a8).all (fun b => decide (b < 128)) = true := by
  simp [liveBytes, List.all_append, grp_ascii a1 d1, grp_ascii a2 d2, grp_ascii a3 d3,
    grp_ascii a4 d4, grp_ascii a5 d5, grp_ascii a6 d6, grp_ascii a7 d7, grp_ascii a8 d8]

lemma parseStatus_of_live {bs : List ℕ} {g : LiveG} {rest : List ℕ}
    (hall : bs.all (fun b => decide (b < 128)) = true)
    (h : matchLive bs = some (g, rest)) (hc : g.cause ≤ 5) :
    parseStatus bs = .ok (some (liveDict g (causeTableList.getD g.cause "none")), rest) := by
  unfold parseStatus
  rw [if_pos hall]
  unfold parseStatusM
  rw [h]
  simp only [postLive, causeGet_lt g.cause (by omega)]

/-! ### Shape-overlap facts -/

lemma matchLive_imp_targets {bs : List ℕ} {r : LiveG × List ℕ}
    (h : matchLive bs = some r) : (matchTargets bs).isSome = true := by
  obtain ⟨g, rest⟩ := r
  obtain ⟨r1, r2, -, -, -, k1, k2, -, -, -⟩ := matchLive_steps h
  unfold matchTargets
  rw [k1]
  simp only [Option.some_bind]
  rw [k2]
  simp

lemma matchLimits_imp_targets {bs : List ℕ} {r : LimitsG × List ℕ}
    (h : matchLimits bs = some r) : (matchTargets bs).isSome = true := by
  obtain ⟨g, rest⟩ := r
  obtain ⟨r1, r2, -, -, -, k1, k2, -, -, -⟩ := matchLimits_steps h
  unfold matchTargets
  rw [k1]
  simp only [Option.some_bind]
  rw [k2]
  simp

/-! ### Dict lemmas -/

lemma dictGet_insert (d : Dict) (k : String) (v : PyVal) (k2 : String) :
    dictGet (dictInsert d k v) k2 = if k = k2 then some v else dictGet d k2 := by
  induction d with
  | nil => simp [dictInsert, dictGet]
  | cons p t ih =>
    obtain ⟨k', v'⟩ := p
    by_cases h : k' = k
    · subst h
      simp only [dictInsert, if_pos rfl]
      by_cases h2 : k' = k2 <;> simp [dictGet, h2]
    · simp only [dictInsert, if_neg h, dictGet]
      rw [ih]
      by_cases h1 : k' = k2 <;> by_cases h2 : k = k2
      · exact absurd (h1.trans h2.symm) h
      · simp [h1, h2]
      · simp [h1, h2]
      · simp [h1, h2]

lemma dictGet_none_of_not_mem : ∀ {d : Dict} {k : String},
    k ∉ d.map Prod.fst → dictGet d k = none := by
  intro d
  induction d with
  | nil => intro k _; rfl
  | cons p t ih =>
    intro k hk
    obtain ⟨k', v'⟩ := p
    simp only [List.map_cons, List.mem_cons] at hk
    push_neg at hk
    have hne : ¬ k' = k := by
      intro hq
      exact hk.1 hq.symm
    simp only [dictGet, if_neg hne]
    exact ih hk.2

lemma dictGet_update (d1 d2 : Dict) (k : String) (h : (d2.map Prod.fst).Nodup) :
    dictGet (dictUpdate d1 d2) k =
      match dictGet d2 k with
      | some v => some v
      | none => dictGet d1 k := by
  induction d2 generalizing d1 with
  | nil => simp [dictUpdate, dictGet]
  | cons p t ih =>
    obtain ⟨k2, v2⟩ := p
    simp only [List.map_cons, List.nodup_cons] at h
    obtain ⟨hk2, ht⟩ := h
    have hstep : dictUpdate d1 ((k2, v2) :: t) = dictUpdate (dictInsert d1 k2 v2) t := by
      simp [dictUpdate]
    rw [hstep, ih _ ht]
    by_cases hk : k2 = k
    · subst hk
      have hnone : dictGet t k2 = none := dictGet_none_of_not_mem hk2
      simp [dictGet, hnone, dictGet_insert]
    · cases hdt : dictGet t k <;> simp [dictGet, hdt, hk, dictGet_insert]

/-! ### Decimal formatting lemmas -/

lemma digitsValFrom_append (acc : ℕ) (xs ys : List ℕ) :
    digitsValFrom acc (xs ++ ys) = digitsValFrom (digitsValFrom acc xs) ys := by
  simp [digitsValFrom, List.foldl_append]

lemma digitsValFrom_single (acc d : ℕ) : digitsValFrom acc [d] = 10 * acc + d := by
  simp [digitsValFrom]

lemma digitsVal_natDigitsAux : ∀ (fuel n : ℕ), n ≤ fuel →
    digitsVal (natDigitsAux (fuel + 1) n) = n := by
  intro fuel
  induction fuel with
  | zero =>
    intro n hn
    interval_cases n
    rfl
  | succ fuel ih =>
    intro n hn
    by_cases h10 : n < 10
    · simp [natDigitsAux, h10, digitsVal, digitsValFrom]
    · have heq : natDigitsAux (fuel + 1 + 1) n =
          natDigitsAux (fuel + 1) (n / 10) ++ [n % 10] := by
        simp [natDigitsAux, h10]
      rw [heq]
      unfold digitsVal
      rw [digitsValFrom_append, digitsValFrom_single]
      have hval : digitsValFrom 0 (natDigitsAux (fuel + 1) (n / 10)) = n / 10 :=
        ih (n / 10) (by omega)
      rw [hval]
      omega

lemma digitsVal_natDigits (n : ℕ) : digitsVal (natDigits n) = n :=
  digitsVal_natDigitsAux n n le_rfl

lemma digitsValFrom_replicate_zero : ∀ k : ℕ, digitsValFrom 0 (List.replicate k 0) = 0 := by
  intro k
  induction k with
  | zero => rfl
  | succ k ih =>
    rw [List.replicate_succ, digitsValFrom_cons]
    simpa using ih

lemma digitsVal_zeroPad (w : ℕ) (ds : List ℕ) :
    digitsVal (zeroPadDigits w ds) = digitsVal ds := by
  unfold zeroPadDigits digitsVal
  rw [digitsValFrom_append, digitsValFrom_replicate_zero]

lemma map_add48_sub48 (ds : List ℕ) :
    (ds.map (fun d => d + 48)).map (fun b => b - 48) = ds := by
  induction ds with
  | nil => rfl
  | cons d t ih => simp [ih]

lemma digitsVal_formatNat (w n : ℕ) :
    digitsVal ((formatNat w n).map (fun b => b - 48)) = n := by
  unfold formatNat
  rw [map_add48_sub48, digitsVal_zeroPad, digitsVal_natDigits]

/-! ### Trace-loop lemmas -/

lemma traceLoop_count_zero (chunks : ℕ → List ℕ) (elapsed : ℕ → ℚ) (timeout : ℚ)
    (fuel i : ℕ) (buf : List ℕ) :
    traceLoop chunks elapsed timeout fuel i 0 buf = ([], none) := by
  cases fuel with
  | zero => rfl
  | succ fuel =>
    unfold traceLoop
    rw [if_neg (by simp)]

lemma traceLoop_neg_noCount (chunks : ℕ → List ℕ) (elapsed : ℕ → ℚ) (timeout : ℚ) :
    ∀ (fuel i : ℕ) (nr : ℤ) (buf : List ℕ), nr < 0 →
      traceLoop chunks elapsed timeout fuel i nr buf =
        traceLoopNoCount chunks elapsed timeout fuel i buf := by
  intro fuel
  induction fuel with
  | zero => intro i nr buf _; rfl
  | succ fuel ih =>
    intro i nr buf hnr
    unfold traceLoop traceLoopNoCount
    have hne : nr ≠ 0 := by omega
    by_cases hg : 0 < timeout ∧ elapsed i < timeout
    · rw [if_pos ⟨hne, hg.1, hg.2⟩, if_pos hg]
      cases hp : parseStatus (buf ++ chunks i) with
      | error e => rfl
      | ok pr =>
        obtain ⟨stq, rest⟩ := pr
        cases stq with
        | some st =>
          dsimp only
          rw [if_neg (show ¬ 0 < nr by omega), ih (i + 1) nr rest hnr]
        | none =>
          dsimp only
          exact ih (i + 1) nr _ hnr
    · rw [if_neg (by tauto), if_neg hg]

lemma traceLoop_error_step (chunks : ℕ → List ℕ) (elapsed : ℕ → ℚ) (timeout : ℚ)
    (fuel i : ℕ) (nr : ℤ) (buf : List ℕ) (e : PyErr)
    (hp : parseStatus (buf ++ chunks i) = .error e)
    (hg : nr ≠ 0 ∧ 0 < timeout ∧ elapsed i < timeout) :
    traceLoop chunks elapsed timeout (fuel + 1) i nr buf = ([], some e) := by
  unfold traceLoop
  rw [if_pos hg, hp]

lemma pyTrunc_natCast (n : ℕ) : pyTrunc (n : ℚ) = (n : ℤ) := by
  unfold pyTrunc
  rw [Rat.num_natCast, Rat.den_natCast]
  exact Int.tdiv_one _

lemma PSset_v_num (cm : Bool) (q : ℚ) :
    PSset cm "v" (.num q) = .ok ⟨cm, [86 :: formatInt 4 (pyTrunc (q * 100))],
      if cm then some ("target_voltage", .num q) else none⟩ := rfl

example : PSset false "v" (.num 150) = .ok ⟨false, [[86, 49, 53, 48, 48, 48]], none⟩ := by
  have h : pyTrunc ((150 : ℚ) * 100) = ((15000 : ℕ) : ℤ) := by
    rw [show (150 : ℚ) * 100 = ((15000 : ℕ) : ℚ) by norm_num, pyTrunc_natCast]
  rw [PSset_v_num, h]
  decide
example : PSset false "v" (.num (3 / 2)) = .ok ⟨false, [[86, 48, 49, 53, 48]], none⟩ := by
  have h : pyTrunc ((3 / 2 : ℚ) * 100) = ((150 : ℕ) : ℤ) := by
    rw [show (3 / 2 : ℚ) * 100 = ((150 : ℕ) : ℚ) by norm_num, pyTrunc_natCast]
  rw [PSset_v_num, h]
  decide
example : PSstat [[("voltage", .num 5)], [("voltage", .num (51 / 10)), ("current", .num 1)]] =
    some [("voltage", .num (51 / 10)), ("current", .num 1)] := rfl
example : traceLoop (fun _ => liveBytes [0,5,0,0] [1,0,0,0] [0,2,5,0] [0] [0,2,5] [0] [0] [1])
    (fun i => (i : ℚ)) 5 4 0 0 [] = ([], none) := rfl
example : (traceLoop (fun _ => liveBytes [0,5,0,0] [1,0,0,0] [0,2,5,0] [0] [0,2,5] [0] [0] [1])
    (fun i => (i : ℚ)) 5 4 0 (-1) []).1 ≠ [] := by decide

/-! ### Remaining helper lemmas for the claims -/

lemma postLive_ne_unicode (g : LiveG) (rest : List ℕ) :
    postLive g rest ≠ .error .unicodeDecodeError := by
  unfold postLive
  cases causeTableList[g.cause]? <;> simp

lemma parseStatusM_ne_unicode (buf : List ℕ) :
    parseStatusM buf ≠ .error .unicodeDecodeError := by
  unfold parseStatusM
  cases h1 : matchLive buf with
  | some p =>
    obtain ⟨g, rest⟩ := p
    exact postLive_ne_unicode g rest
  | none =>
    cases h2 : matchLimits buf with
    | some p => simp
    | none =>
      cases h3 : matchTargets buf with
      | some p => simp
      | none =>
        cases h4 : matchLiveP buf with
        | some p =>
          obtain ⟨g, rest⟩ := p
          exact postLive_ne_unicode g rest
        | none => simp

/-! ### The claims -/

/-- C1: for every buffer that is a valid anchored live fragment with digit
groups `a1..a8` of widths 4, 4, 4, 1, 3, 1, 1, 1, each followed by `A`, and
any ASCII tail, `parse_status` returns voltage = D1/100, current = D2/1000,
power = D3/100, temperature = D5, mode `"CV"` iff D6 = 0 and `"CC"`
otherwise, cause = the six-entry table at D7 (for D7 ≤ 5), enable = D8, and
the remainder starts exactly after the last matched separator. -/
theorem c1_live_decode (a1 a2 a3 a4 a5 a6 a7 a8 rest : List ℕ)
    (l1 : a1.length = 4) (l2 : a2.length = 4) (l3 : a3.length = 4) (l4 : a4.length = 1)
    (l5 : a5.length = 3) (l6 : a6.length = 1) (l7 : a7.length = 1) (l8 : a8.length = 1)
    (d1 : ∀ d ∈ a1, d < 10) (d2 : ∀ d ∈ a2, d < 10) (d3 : ∀ d ∈ a3, d < 10)
    (d4 : ∀ d ∈ a4, d < 10) (d5 : ∀ d ∈ a5, d < 10) (d6 : ∀ d ∈ a6, d < 10)
    (d7 : ∀ d ∈ a7, d < 10) (d8 : ∀ d ∈ a8, d < 10)
    (hc : digitsVal a7 ≤ 5)
    (hrest : rest.all (fun b => decide (b < 128)) = true) :
    parseStatus (liveBytes a1 a2 a3 a4 a5 a6 a7 a8 ++ rest) =
      .ok (some [("voltage", .num ((digitsVal a1 : ℚ) / 100)),
                 ("current", .num ((digitsVal a2 : ℚ) / 1000)),
                 ("power", .num ((digitsVal a3 : ℚ) / 100)),
                 ("temperature", .num ((digitsVal a5 : ℚ))),
                 ("mode", .str (if digitsVal a6 = 0 then "CV" else "CC")),
                 ("cause", .str (causeTableList.getD (digitsVal a7) "none")),
                 ("enable", .num ((digitsVal a8 : ℚ)))], rest) := by
  have hall : (liveBytes a1 a2 a3 a4 a5 a6 a7 a8 ++ rest).all
      (fun b => decide (b < 128)) = true := by
    rw [List.all_append]
    rw [liveBytes_ascii a1 a2 a3 a4 a5 a6 a7 a8 d1 d2 d3 d4 d5 d6 d7 d8, hrest]
    rfl
  have hm := matchLive_build a1 a2 a3 a4 a5 a6 a7 a8 rest
    l1 l2 l3 l4 l5 l6 l7 l8 d1 d2 d3 d4 d5 d6 d7 d8
  exact parseStatus_of_live hall hm hc

/-- Witness for C1 at a concrete fragment. -/
theorem c1_live_decode_witness :
    parseStatus (liveBytes [0,5,0,0] [1,0,0,0] [0,2,5,0] [0] [0,2,5] [0] [0] [1] ++ []) =
      .ok (some [("voltage", .num ((digitsVal [0,5,0,0] : ℚ) / 100)),
                 ("current", .num ((digitsVal [1,0,0,0] : ℚ) / 1000)),
                 ("power", .num ((digitsVal [0,2,5,0] : ℚ) / 100)),
                 ("temperature", .num ((digitsVal [0,2,5] : ℚ))),
                 ("mode", .str (if digitsVal [0] = 0 then "CV" else "CC")),
                 ("cause", .str (causeTableList.getD (digitsVal [0]) "none")),
                 ("enable", .num ((digitsVal [1] : ℚ)))], []) :=
  c1_live_decode [0,5,0,0] [1,0,0,0] [0,2,5,0] [0] [0,2,5] [0] [0] [1] []
    rfl rfl rfl rfl rfl rfl rfl rfl
    (by decide) (by decide) (by decide) (by decide) (by decide) (by decide)
    (by decide) (by decide) (by decide) rfl

/-- C2 counterexample: a buffer that is a valid anchored live fragment is
matched by both the `Live` (type-0) pattern and the `Targets` (type-2)
pattern, two distinct shapes outside the exempted `Live`/`LiveWithPrefix`
pair — the targets pattern `\d{4}A\d{4}A` is a prefix of the live one. -/
theorem c2_counterexample :
    (matchLive (liveBytes [0,0,1,1] [0,0,2,2] [0,0,3,3] [4] [0,5,5] [0] [0] [1])).isSome = true ∧
    (matchTargets (liveBytes [0,0,1,1] [0,0,2,2] [0,0,3,3] [4] [0,5,5] [0] [0] [1])).isSome = true := by
  constructor <;> decide

/-- C2 (amended): every buffer matched by the live pattern — and every buffer
matched by the limits pattern — is also matched by the targets pattern, so
classification does depend on trying `Targets` after the other two; the
live and limits patterns, however, never both match the same buffer. -/
theorem c2_amended :
    (∀ (bs : List ℕ) (r : LiveG × List ℕ),
        matchLive bs = some r → (matchTargets bs).isSome = true) ∧
    (∀ (bs : List ℕ) (r : LimitsG × List ℕ),
        matchLimits bs = some r → (matchTargets bs).isSome = true) ∧
    (∀ bs : List ℕ, ¬((matchLive bs).isSome = true ∧ (matchLimits bs).isSome = true)) :=
  ⟨fun _ _ h => matchLive_imp_targets h,
   fun _ _ h => matchLimits_imp_targets h,
   live_limits_disjoint⟩

/-- Witness for C2 (amended) at a concrete live buffer. -/
theorem c2_amended_witness :
    (matchTargets (liveBytes [1,2,0,0] [0,0,5,0] [0,0,6,0] [0] [0,3,0] [1] [2] [0])).isSome = true :=
  c2_amended.1 _ (⟨1200, 50, 60, 0, 30, 1, 2, 0⟩, []) (by decide)

/-- C3: whenever the anchored live pattern matches a (decodable) buffer, the
prefix-tolerant pattern also matches with an empty prefix and the same
groups, and `parse_status` returns exactly the anchored interpretation:
the type-0 record and the type-0 remainder. -/
theorem c3_anchored_priority (bs : List ℕ) (g : LiveG) (rest : List ℕ)
    (hall : bs.all (fun b => decide (b < 128)) = true)
    (h : matchLive bs = some (g, rest)) (hc : g.cause ≤ 5) :
    matchLiveP bs = some (g, rest) ∧
    parseStatus bs = .ok (some (liveDict g (causeTableList.getD g.cause "none")), rest) := by
  constructor
  · cases bs with
    | nil => exact h
    | cons b t =>
      unfold matchLiveP
      rw [h]
  · exact parseStatus_of_live hall h hc

/-- Witness for C3 at a concrete fragment. -/
theorem c3_anchored_priority_witness :
    matchLiveP (liveBytes [0,0,0,1] [0,0,0,2] [0,0,0,3] [1] [1,0,0] [0] [3] [1]) =
      some (⟨1, 2, 3, 1, 100, 0, 3, 1⟩, []) ∧
    parseStatus (liveBytes [0,0,0,1] [0,0,0,2] [0,0,0,3] [1] [1,0,0] [0] [3] [1]) =
      .ok (some (liveDict ⟨1, 2, 3, 1, 100, 0, 3, 1⟩ (causeTableList.getD 3 "none")), []) :=
  c3_anchored_priority _ ⟨1, 2, 3, 1, 100, 0, 3, 1⟩ [] (by decide) (by decide) (by decide)

/-- C4 counterexample: a buffer holding the single byte `0x80` makes
`parse_status` raise `UnicodeDecodeError` from `buf.decode('ascii')` instead
of being treated as non-matching content. -/
theorem c4_counterexample : parseStatus [128] = .error .unicodeDecodeError := by decide

/-- C4 (amended): `parse_status` raises `UnicodeDecodeError` exactly on the
buffers holding some byte ≥ 128; on all-ASCII buffers the decode step never
fails, and bytes outside the digit/separator alphabet only lead to a
no-match result or are absorbed by the garbage prefix of the type-3 shape. -/
theorem c4_decode_errors (buf : List ℕ) :
    parseStatus buf = .error .unicodeDecodeError ↔
      ¬(buf.all (fun b => decide (b < 128)) = true) := by
  unfold parseStatus
  by_cases hall : buf.all (fun b => decide (b < 128)) = true
  · rw [if_pos hall]
    simp only [hall, not_true, iff_false]
    exact parseStatusM_ne_unicode buf
  · rw [if_neg hall]
    simp [hall]

/-- C5 counterexample: on a live fragment with cause digit 6, `parse_status`
raises `IndexError` — no advanced buffer is returned — and the same
exception escapes the `trace` loop instead of being contained. -/
theorem c5_counterexample :
    parseStatus (liveBytes [0,1,0,0] [0,2,0,0] [0,3,0,0] [0] [0,4,0] [1] [6] [1]) =
      .error .indexError ∧
    traceLoop (fun _ => liveBytes [0,1,0,0] [0,2,0,0] [0,3,0,0] [0] [0,4,0] [1] [6] [1])
      (fun i => (i : ℚ)) 5 3 0 (-1) [] = ([], some .indexError) := by
  constructor <;> decide

/-- C5 (amended): a matched live fragment (anchored or behind a garbage
prefix) whose cause digit is outside 0..5 makes `parse_status` raise
`IndexError`: no record/remainder pair is produced, so the buffer position
does not advance, and inside `trace` the exception aborts the loop. -/
theorem c5_amended :
    (∀ (bs : List ℕ) (g : LiveG) (rest : List ℕ),
        bs.all (fun b => decide (b < 128)) = true →
        (matchLive bs = some (g, rest) ∨
          (matchLive bs = none ∧ matchLimits bs = none ∧ matchTargets bs = none ∧
            matchLiveP bs = some (g, rest))) →
        6 ≤ g.cause → parseStatus bs = .error .indexError) ∧
    (∀ (chunks : ℕ → List ℕ) (elapsed : ℕ → ℚ) (timeout : ℚ) (fuel i : ℕ) (nr : ℤ)
        (buf : List ℕ) (e : PyErr),
        parseStatus (buf ++ chunks i) = .error e →
        nr ≠ 0 ∧ 0 < timeout ∧ elapsed i < timeout →
        traceLoop chunks elapsed timeout (fuel + 1) i nr buf = ([], some e)) := by
  constructor
  · intro bs g rest hall hmatch hc
    unfold parseStatus
    rw [if_pos hall]
    unfold parseStatusM
    rcases hmatch with h | ⟨h0, h1, h2, h3⟩
    · rw [h]
      show postLive g rest = Except.error PyErr.indexError
      unfold postLive
      rw [causeGet_ge g.cause hc]
    · rw [h0, h1, h2, h3]
      show postLive g rest = Except.error PyErr.indexError
      unfold postLive
      rw [causeGet_ge g.cause hc]
  · intro chunks elapsed timeout fuel i nr buf e hp hg
    exact traceLoop_error_step chunks elapsed timeout fuel i nr buf e hp hg

/-- Witness for C5 (amended) at a concrete fragment with cause digit 7. -/
theorem c5_amended_witness :
    parseStatus (liveBytes [0,0,9,0] [0,0,8,0] [0,0,7,0] [2] [0,0,5] [0] [7] [0]) =
      .error .indexError ∧
    traceLoop (fun _ => liveBytes [0,0,9,0] [0,0,8,0] [0,0,7,0] [2] [0,0,5] [0] [7] [0])
      (fun _ => 0) 5 1 0 1 [] = ([], some .indexError) := by
  constructor
  · exact c5_amended.1 _ ⟨90, 80, 70, 2, 5, 0, 7, 0⟩ [] (by decide) (Or.inl (by decide))
      (by decide)
  · exact c5_amended.2 _ _ 5 0 0 1 [] .indexError (by decide) (by decide)

/-- C6 counterexample: with a requested count of 0 and a positive timeout,
`trace` yields nothing and stops at once — the very same schedule yields
records when the count is negative, so records were available well before
the timeout. -/
theorem c6_counterexample :
    traceLoop (fun _ => liveBytes [0,6,0,0] [1,1,0,0] [0,2,0,0] [0] [0,3,1] [1] [0] [1])
      (fun i => (i : ℚ)) 5 4 0 0 [] = ([], none) ∧
    (traceLoop (fun _ => liveBytes [0,6,0,0] [1,1,0,0] [0,2,0,0] [0] [0,3,1] [1] [0] [1])
      (fun i => (i : ℚ)) 5 4 0 (-1) []).1 ≠ [] := by
  constructor <;> decide

/-- C6 (amended): only a negative requested count is "run until
timeout/cancelled" — the loop is then equivalent to the same loop with the
count test and decrement removed; a count of exactly 0 falsifies `nr != 0`
immediately and produces nothing; the default timeout is 1.5 × count. -/
theorem c6_amended :
    (∀ (chunks : ℕ → List ℕ) (elapsed : ℕ → ℚ) (timeout : ℚ) (fuel i : ℕ) (nr : ℤ)
        (buf : List ℕ), nr < 0 →
        traceLoop chunks elapsed timeout fuel i nr buf =
          traceLoopNoCount chunks elapsed timeout fuel i buf) ∧
    (∀ (chunks : ℕ → List ℕ) (elapsed : ℕ → ℚ) (timeout : ℚ) (fuel i : ℕ)
        (buf : List ℕ), traceLoop chunks elapsed timeout fuel i 0 buf = ([], none)) ∧
    (∀ nr : ℤ, traceTimeoutDefault nr = (nr : ℚ) * (3 / 2)) :=
  ⟨fun chunks elapsed timeout fuel i nr buf h =>
      traceLoop_neg_noCount chunks elapsed timeout fuel i nr buf h,
   fun chunks elapsed timeout fuel i buf =>
      traceLoop_count_zero chunks elapsed timeout fuel i buf,
   fun _ => rfl⟩

/-- Witness for C6 (amended) at count −1 on a concrete schedule. -/
theorem c6_amended_witness :
    traceLoop (fun _ => [65]) (fun _ => 0) 1 2 0 (-1) [] =
      traceLoopNoCount (fun _ => [65]) (fun _ => 0) 1 2 0 [] :=
  c6_amended.1 _ _ 1 2 0 (-1) [] (by decide)

/-- C7: `stat` merges records by last-write-wins field union — in general,
a key's merged value is the updating record's when present and the base
record's otherwise — the quoted example merges as specified, zero merged
records give `None`, and an all-zero-valued record gives a snapshot distinct
from `None`. -/
theorem c7_stat_merge :
    (∀ (d1 d2 : Dict) (k : String), (d2.map Prod.fst).Nodup →
        dictGet (dictUpdate d1 d2) k =
          match dictGet d2 k with
          | some v => some v
          | none => dictGet d1 k) ∧
    PSstat [[("voltage", .num 5)], [("voltage", .num (51 / 10)), ("current", .num 1)]] =
      some [("voltage", .num (51 / 10)), ("current", .num 1)] ∧
    PSstat [] = none ∧
    PSstat [[("voltage", .num 0), ("current", .num 0)]] =
      some [("voltage", .num 0), ("current", .num 0)] :=
  ⟨fun d1 d2 k h => dictGet_update d1 d2 k h, rfl, rfl, rfl⟩

/-- Witness for C7's general merge clause at a concrete collision. -/
theorem c7_stat_merge_witness :
    dictGet (dictUpdate [("alpha", PyVal.num 1)] [("alpha", PyVal.num 2)]) "alpha" =
      some (PyVal.num 2) :=
  c7_stat_merge.1 [("alpha", PyVal.num 1)] [("alpha", PyVal.num 2)] "alpha" (by simp)

/-- C8 counterexample: a voltage of 150 scales to 15000, which exceeds the
4-digit field, yet `set` succeeds and emits `V15000` — no formatting error
is produced. -/
theorem c8_counterexample :
    PSset false "v" (.num 150) = .ok ⟨false, [[86, 49, 53, 48, 48, 48]], none⟩ := by
  have h : pyTrunc ((150 : ℚ) * 100) = ((15000 : ℕ) : ℤ) := by
    rw [show (150 : ℚ) * 100 = ((15000 : ℕ) : ℚ) by norm_num, pyTrunc_natCast]
  rw [PSset_v_num, h]
  decide

/-- C8 (amended): the encoder never errors on a too-wide value and never
truncates it either: for every natural voltage `m` the emitted command is
`V` followed by the zero-padded full decimal of `100·m` — the field simply
grows past 4 digits — and reading the emitted digits back recovers `100·m`
exactly. -/
theorem c8_amended (m : ℕ) :
    PSset false "v" (.num (m : ℚ)) = .ok ⟨false, [86 :: formatNat 4 (m * 100)], none⟩ ∧
    digitsVal ((formatNat 4 (m * 100)).map (fun b => b - 48)) = m * 100 := by
  constructor
  · have h : pyTrunc ((m : ℚ) * 100) = ((m * 100 : ℕ) : ℤ) := by
      rw [show ((m : ℚ) * 100) = ((m * 100 : ℕ) : ℚ) by push_cast; ring, pyTrunc_natCast]
    have hfi : formatInt 4 ((m * 100 : ℕ) : ℤ) = formatNat 4 (m * 100) := by
      unfold formatInt
      rw [if_neg (by omega), Int.natAbs_ofNat]
    rw [PSset_v_num, h, hfi]
    rfl
  · exact digitsVal_formatNat 4 (m * 100)

/-- C9: encoding a target voltage of 1.50 produces the digit group `0150`,
and decoding a synthetic targets fragment built from that group returns
`target_voltage` exactly 3/2 = 1.50, with no drift. -/
theorem c9_roundtrip :
    ∃ enc : List ℕ,
      PSset false "v" (.num (3 / 2)) = .ok ⟨false, [86 :: enc], none⟩ ∧
      parseStatus (enc ++ 65 :: grp [0, 0, 0, 0]) =
        .ok (some [("target_voltage", .num (3 / 2)), ("target_current", .num 0)], []) := by
  refine ⟨[48, 49, 53, 48], ?_, ?_⟩
  · have h : pyTrunc ((3 / 2 : ℚ) * 100) = ((150 : ℕ) : ℤ) := by
      rw [show (3 / 2 : ℚ) * 100 = ((150 : ℕ) : ℚ) by norm_num, pyTrunc_natCast]
    rw [PSset_v_num, h]
    decide
  · have h1 : parseStatus ([48, 49, 53, 48] ++ 65 :: grp [0, 0, 0, 0]) =
        .ok (some [("target_voltage", .num ((150 : ℚ) / 100)),
                   ("target_current", .num ((0 : ℚ) / 1000))], []) := rfl
    rw [h1, show ((150 : ℚ) / 100) = 3 / 2 by norm_num,
      show ((0 : ℚ) / 1000) = (0 : ℚ) by norm_num]

/-- C10: `set` with any key outside the recognized chain sends nothing,
raises nothing, requests no read-back check and leaves `check_mode`
unchanged: unrecognized keys fall through silently. -/
theorem c10_unrecognized_noop (key : String) (value : PyVal) (cm : Bool)
    (h : key ∉ ["check", "power", "enable", "log", "logging", "noprotect", "v", "voltage",
        "c", "current", "ovp", "ocp", "opp", "ohp", "ohp_enable", "mem", "memory"]) :
    PSset cm key value = .ok ⟨cm, [], none⟩ := by
  simp only [List.mem_cons, List.not_mem_nil, or_false] at h
  push_neg at h
  obtain ⟨h1, h2, h3, h4, h5, h6, h7, h8, h9, h10, h11, h12, h13, h14, h15, h16, h17⟩ := h
  unfold PSset
  rw [if_neg h1,
    if_neg (fun hc => hc.elim h2 h3),
    if_neg (fun hc => hc.elim h4 h5),
    if_neg (fun hc => h6 hc.1),
    if_neg (fun hc => hc.elim h7 h8),
    if_neg (fun hc => hc.elim h9 h10),
    if_neg h11, if_neg h12, if_neg h13, if_neg h14, if_neg h15,
    if_neg (fun hc => hc.elim h16 h17)]

/-- Witness for C10 at a concrete unrecognized key. -/
theorem c10_unrecognized_noop_witness :
    PSset true "frequency" (PyVal.num 60) = .ok ⟨true, [], none⟩ :=
  c10_unrecognized_noop "frequency" (PyVal.num 60) true (by decide)
